import Mathlib

/-!
# Verification of the alamarBlue absorbance analysis script

Shallow embedding of `alamar_absorbance.py`.  Spreadsheet I/O, the file
dialog, the interactive range selection and the document export are external
collaborators; the embedded core is the range parser
(`get_replicate_cells_from_range`), the absorbance calculator
(`process_replicates`) and the viability aggregation performed in `main`.
Raw cell values are modelled as `Option ℚ` (a numeric value or `None`), and
all arithmetic is exact rational arithmetic.
-/

namespace AlamarBlue

/-- Python `range(start, stop, 2)`: the arithmetic progression
`start, start+2, ...` of all values below `stop`. -/
def pyRange2 (start stop : ℕ) : List ℕ :=
  (List.range ((stop - start + 1) / 2)).map (fun i => start + 2 * i)

/-- Embeds `get_replicate_cells_from_range` (source lines 11-37) after the
coordinate extraction: openpyxl's `coordinate_from_string` splits each end of
the range `"<col><row>:<col><row>"` into a column-letter string and a row
number, and the source converts the rows to `int`.  The source parses
` end_col` but never uses it; every generated address reuses `start_col`.
The loop `for row in range(start_row, end_row + 1, 2)` appends the pair
`(f"{start_col}{row}", f"{start_col}{row + 1}")` for each visited row. -/
def get_replicate_cells_from_range (start_col : String) (start_row : ℕ)
    (_end_col : String) (end_row : ℕ) : List (String × String) :=
  (pyRange2 start_row (end_row + 1)).map
    (fun row => (start_col ++ toString row, start_col ++ toString (row + 1)))

/-- A worksheet: a map from cell addresses to an optional numeric value
(`none` models an empty cell / Python `None`). -/
def Sheet : Type := String → Option ℚ

/-- Embeds `process_replicates` (source lines 39-62): for each cell pair, if
both readings are present append `value_570 * 117216 - value_600 * 80586`,
otherwise print a warning and skip the pair. -/
def process_replicates (sheet : Sheet) (replicate_cells : List (String × String)) :
    List ℚ :=
  replicate_cells.filterMap (fun rc =>
    match sheet rc.1, sheet rc.2 with
    | some value_570, some value_600 =>
        some (value_570 * 117216 - value_600 * 80586)
    | _, _ => none)

/-- `np.mean`: sum divided by length (the aggregation code only applies it to
nonempty lists). -/
def mean (xs : List ℚ) : ℚ := xs.sum / (xs.length : ℚ)

/-- The values sorted ascending, as `np.percentile` sorts its input. -/
def sortedVals (xs : List ℚ) : List ℚ :=
  xs.mergeSort

/-- The fractional index `(n - 1) * p / 100` used by `np.percentile` with the
default linear interpolation. -/
def interpIndex (n : ℕ) (p : ℚ) : ℚ := ((n : ℚ) - 1) * p / 100

/-- `np.percentile(xs, p)` with the default linear-interpolation method:
with `h = (n-1)*p/100`, `k = ⌊h⌋`, the result is
`s[k] + (h - k) * (s[k+1] - s[k])` on the ascending sort `s`
(when `k` is the last index the interpolation term vanishes). -/
def percentile (xs : List ℚ) (p : ℚ) : ℚ :=
  let s := sortedVals xs
  let h := interpIndex s.length p
  let k := (⌊h⌋).toNat
  let lo := s.getD k 0
  let hi := s.getD (k + 1) lo
  lo + (h - (⌊h⌋ : ℚ)) * (hi - lo)

/-- The IQR outlier filter of `main` (source lines 181-188): `Q1`/`Q3` are the
25th/75th percentiles, `IQR = Q3 - Q1`, and exactly the values inside the
closed interval `[Q1 - 1.5*IQR, Q3 + 1.5*IQR]` are kept, in order. -/
def removeOutliersFilter (xs : List ℚ) : List ℚ :=
  let Q1 := percentile xs 25
  let Q3 := percentile xs 75
  let IQR := Q3 - Q1
  let Tmin := Q1 - (3/2) * IQR
  let Tmax := Q3 + (3/2) * IQR
  xs.filter (fun v => decide (Tmin ≤ v) && decide (v ≤ Tmax))

/-- Source lines 179-192: outliers are removed only when the user answered
yes AND the sample has more than 2 replicate values; otherwise the values are
used unfiltered. -/
def filteredValues (remove_outliers : Bool) (xs : List ℚ) : List ℚ :=
  if remove_outliers = true ∧ 2 < xs.length then removeOutliersFilter xs else xs

/-- Python `round` to an integer: nearest integer, ties to even
(exact-arithmetic model of the float builtin). -/
def pyRound (x : ℚ) : ℤ :=
  if Int.fract x < 1/2 then ⌊x⌋
  else if 1/2 < Int.fract x then ⌊x⌋ + 1
  else if ⌊x⌋ % 2 = 0 then ⌊x⌋ else ⌊x⌋ + 1

/-- Python `round(x, 1)`: round to one decimal place. -/
def round1 (x : ℚ) : ℚ := ((pyRound (x * 10) : ℤ) : ℚ) / 10

/-- An entry of `samples_data` (source lines 165-168): a sample name together
with its list of adjusted absorbance replicate values. -/
structure Sample where
  sample_name : String
  replicate_values : List ℚ
deriving DecidableEq

/-- The per-sample user input: a name and the selected single-column range,
already split into column letter and start/end rows. -/
structure SampleInput where
  name : String
  col : String
  startRow : ℕ
  endRow : ℕ

/-- The sample-collection loop of `main` (source lines 137-168): each sample's
range is parsed and processed, and samples with no valid replicate values are
skipped (lines 161-163), the rest appended in order to `samples_data`. -/
def collectSamples (sheet : Sheet) (inputs : List SampleInput) : List Sample :=
  inputs.filterMap (fun inp =>
    let replicate_values := process_replicates sheet
      (get_replicate_cells_from_range inp.col inp.startRow inp.col inp.endRow)
    if replicate_values = [] then none
    else some ⟨inp.name, replicate_values⟩)

/-- One row of the results table for an ordinary sample (source lines
174-198): filter outliers if applicable, average, and report
`round((average / positive_control_average) * 100, 1)`. -/
def sampleRow (positive_control_average : ℚ) (remove_outliers : Bool)
    (s : Sample) : String × ℚ :=
  let filtered_values := filteredValues remove_outliers s.replicate_values
  let average := mean filtered_values
  (s.sample_name, round1 (average / positive_control_average * 100))

/-- The data rows of the results table (source lines 171-198): the positive
control first with the fixed value `100.0`, then one row per collected
sample, in order. -/
def results_table (positive_control_name : String)
    (positive_control_average : ℚ) (remove_outliers : Bool)
    (samples : List Sample) : List (String × ℚ) :=
  (positive_control_name, 100) ::
    samples.map (sampleRow positive_control_average remove_outliers)

/-- The computational core of `main` after the workbook and sheet have been
obtained: process the positive control's range (lines 111-112); if it has no
valid replicate values abort (lines 121-123, modelled as `none`); otherwise
take its average (line 126), collect the remaining samples and produce the
results table. -/
def run (sheet : Sheet) (positive_control_name : String)
    (pcCol : String) (pcStart pcEnd : ℕ) (remove_outliers : Bool)
    (inputs : List SampleInput) : Option (List (String × ℚ)) :=
  let positive_control_replicate_values := process_replicates sheet
    (get_replicate_cells_from_range pcCol pcStart pcCol pcEnd)
  if positive_control_replicate_values = [] then none
  else
    some (results_table positive_control_name
      (mean positive_control_replicate_values) remove_outliers
      (collectSamples sheet inputs))

/-! ### Concrete worksheets used to instantiate the theorems -/

/-- A worksheet whose control range `A1:A6` yields the adjusted absorbances
`[100, 110, 105]` and whose sample range `B1:B4` yields `[90, 95]` (each
600nm cell is `0`, each 570nm cell divides the target value by `117216`). -/
def demoSheet : Sheet := fun c =>
  if c = "A1" then some (100/117216) else if c = "A2" then some 0
  else if c = "A3" then some (110/117216) else if c = "A4" then some 0
  else if c = "A5" then some (105/117216) else if c = "A6" then some 0
  else if c = "B1" then some (90/117216) else if c = "B2" then some 0
  else if c = "B3" then some (95/117216) else if c = "B4" then some 0
  else none

/-- The sample list entered after the positive control: one sample named
`s1` on the range `B1:B4`. -/
def demoInputs : List SampleInput := [⟨"s1", "B", 1, 4⟩]

/-- A worksheet holding the raw readings `0.5` (at `A1`) and `0.2` (at `A2`);
every other cell is empty. -/
def cexSheet : Sheet := fun c =>
  if c = "A1" then some (1/2) else if c = "A2" then some (1/5) else none

/-! ### Helper lemmas -/

lemma sortedVals_perm (xs : List ℚ) : List.Perm (sortedVals xs) xs :=
  List.mergeSort_perm xs _

lemma sortedVals_length (xs : List ℚ) : (sortedVals xs).length = xs.length :=
  (sortedVals_perm xs).length_eq

lemma sortedVals_sorted (xs : List ℚ) : List.Sorted (· ≤ ·) (sortedVals xs) :=
  List.sorted_mergeSort' xs

lemma sorted_getD_mono {s : List ℚ} (hs : List.Sorted (· ≤ ·) s) {i j : ℕ}
    (hij : i ≤ j) (hj : j < s.length) : s.getD i 0 ≤ s.getD j 0 := by
  have hi : i < s.length := Nat.lt_of_le_of_lt hij hj
  rw [List.getD_eq_getElem?_getD, List.getD_eq_getElem?_getD,
    List.getElem?_eq_getElem hi, List.getElem?_eq_getElem hj, Option.getD_some,
    Option.getD_some]
  rcases Nat.lt_or_ge i j with hlt | hge
  · exact List.pairwise_iff_getElem.mp hs i j hi hj hlt
  · have hij' : i = j := Nat.le_antisymm hij hge
    subst hij'
    exact le_refl _

lemma getD_in_range {s : List ℚ} {i : ℕ} (h : i < s.length) (d : ℚ) :
    s.getD i d = s.getD i 0 := by
  rw [List.getD_eq_getElem?_getD, List.getD_eq_getElem?_getD,
    List.getElem?_eq_getElem h, Option.getD_some, Option.getD_some]

lemma getD_out_range {s : List ℚ} {i : ℕ} (h : s.length ≤ i) (d : ℚ) :
    s.getD i d = d := by
  rw [List.getD_eq_getElem?_getD, List.getElem?_eq_none h, Option.getD_none]

lemma percentile_def (xs : List ℚ) (p : ℚ) :
    percentile xs p =
      (sortedVals xs).getD (⌊interpIndex (sortedVals xs).length p⌋).toNat 0 +
        (interpIndex (sortedVals xs).length p -
            (⌊interpIndex (sortedVals xs).length p⌋ : ℚ)) *
          ((sortedVals xs).getD ((⌊interpIndex (sortedVals xs).length p⌋).toNat + 1)
              ((sortedVals xs).getD (⌊interpIndex (sortedVals xs).length p⌋).toNat 0) -
            (sortedVals xs).getD (⌊interpIndex (sortedVals xs).length p⌋).toNat 0) :=
  rfl

/-- The interpolated percentile is at least the sorted value at the floor
index. -/
lemma percentile_lower (xs : List ℚ) (p : ℚ) :
    (sortedVals xs).getD (⌊interpIndex (sortedVals xs).length p⌋).toNat 0 ≤
      percentile xs p := by
  rw [percentile_def]
  set s := sortedVals xs with hs
  set h := interpIndex s.length p with hh
  set k := (⌊h⌋).toNat with hk
  have hfrac : 0 ≤ h - (⌊h⌋ : ℚ) := by
    have := Int.floor_le h
    linarith
  have hhl : s.getD k 0 ≤ s.getD (k + 1) (s.getD k 0) := by
    rcases Nat.lt_or_ge (k + 1) s.length with hk1 | hk1
    · rw [getD_in_range hk1]
      exact sorted_getD_mono (sortedVals_sorted xs) (Nat.le_succ k) hk1
    · rw [getD_out_range hk1]
  have hmul := mul_nonneg hfrac (sub_nonneg.mpr hhl)
  linarith

/-- The interpolated percentile is at most the sorted value at the ceiling
index (when that index is in range and the fractional index is nonnegative). -/
lemma percentile_upper (xs : List ℚ) (p : ℚ)
    (h0 : 0 ≤ interpIndex (sortedVals xs).length p)
    (hc : (⌈interpIndex (sortedVals xs).length p⌉).toNat < (sortedVals xs).length) :
    percentile xs p ≤
      (sortedVals xs).getD (⌈interpIndex (sortedVals xs).length p⌉).toNat 0 := by
  rw [percentile_def]
  set s := sortedVals xs with hs
  set h := interpIndex s.length p with hh
  have hfl0 : (0 : ℤ) ≤ ⌊h⌋ := Int.le_floor.mpr (by exact_mod_cast h0)
  by_cases hint : h = (⌊h⌋ : ℚ)
  · have hceil : ⌈h⌉ = ⌊h⌋ := by rw [hint]; exact Int.ceil_intCast _
    rw [hceil] at hc ⊢
    have hzero : h - (⌊h⌋ : ℚ) = 0 := sub_eq_zero_of_eq hint
    rw [hzero]
    ring_nf
    exact le_refl _
  · have hceil : ⌈h⌉ = ⌊h⌋ + 1 := by
      have hc1 : ⌈h⌉ ≤ ⌊h⌋ + 1 := Int.ceil_le_floor_add_one h
      have hc2 : ⌊h⌋ < ⌈h⌉ := by
        by_contra hle
        push_neg at hle
        have h1 : h ≤ (⌈h⌉ : ℚ) := Int.le_ceil h
        have h2 : ((⌈h⌉ : ℤ) : ℚ) ≤ ((⌊h⌋ : ℤ) : ℚ) := by exact_mod_cast hle
        have h3 : (⌊h⌋ : ℚ) ≤ h := Int.floor_le h
        exact hint (le_antisymm (by linarith) h3)
      omega
    rw [hceil] at hc ⊢
    have hkn : ((⌊h⌋ : ℤ) + 1).toNat = (⌊h⌋).toNat + 1 := by omega
    rw [hkn] at hc ⊢
    have hfrac1 : h - (⌊h⌋ : ℚ) ≤ 1 := by
      have := Int.lt_floor_add_one h
      linarith
    have hmono : s.getD (⌊h⌋).toNat 0 ≤ s.getD ((⌊h⌋).toNat + 1) 0 :=
      sorted_getD_mono (sortedVals_sorted xs) (Nat.le_succ _) hc
    rw [getD_in_range hc]
    have hmul := mul_le_mul_of_nonneg_right hfrac1 (sub_nonneg.mpr hmono)
    linarith

/-- On more than two values, the IQR outlier filter always retains at least
one value: the sorted value at index `⌈(n-1)/4⌉` lies between the 25th and
75th interpolated percentiles, hence inside the closed threshold interval. -/
lemma removeOutliersFilter_ne_nil {xs : List ℚ} (hlen : 2 < xs.length) :
    removeOutliersFilter xs ≠ [] := by
  have hslen : (sortedVals xs).length = xs.length := sortedVals_length xs
  set n := (sortedVals xs).length with hn
  have hn3 : 3 ≤ n := by omega
  have hn3q : (3 : ℚ) ≤ (n : ℚ) := by exact_mod_cast hn3
  set x : ℚ := ((n : ℚ) - 1) / 4 with hx
  have hi25 : interpIndex n 25 = x := by rw [hx]; unfold interpIndex; ring
  have hi75 : interpIndex n 75 = 3 * x := by rw [hx]; unfold interpIndex; ring
  have hx2 : 1/2 ≤ x := by rw [hx]; linarith
  have hceil_le : ⌈x⌉ ≤ ⌊3 * x⌋ := by
    rw [Int.le_floor]
    have := Int.ceil_lt_add_one x
    linarith
  have hceil0 : (0 : ℤ) ≤ ⌈x⌉ := Int.ceil_nonneg (by linarith)
  have hfl_lt : ⌊3 * x⌋ < (n : ℤ) := by
    have h1 : (⌊3 * x⌋ : ℚ) ≤ 3 * x := Int.floor_le _
    have h2 : 3 * x < (n : ℚ) := by rw [hx]; linarith
    exact_mod_cast lt_of_le_of_lt h1 h2
  set m := (⌈x⌉).toNat with hm
  set k3 := (⌊3 * x⌋).toNat with hk3
  have hmk3 : m ≤ k3 := by omega
  have hk3n : k3 < n := by omega
  have hmn : m < n := by omega
  have hQ1 : percentile xs 25 ≤ (sortedVals xs).getD m 0 := by
    have h := percentile_upper xs 25 (by rw [← hn, hi25]; linarith)
      (by rw [← hn, hi25, ← hm]; exact hmn)
    rw [← hn, hi25, ← hm] at h
    exact h
  have hQ3 : (sortedVals xs).getD k3 0 ≤ percentile xs 75 := by
    have h := percentile_lower xs 75
    rw [← hn, hi75, ← hk3] at h
    exact h
  have hmid : (sortedVals xs).getD m 0 ≤ (sortedVals xs).getD k3 0 :=
    sorted_getD_mono (sortedVals_sorted xs) hmk3 (by omega)
  have hv_mem : (sortedVals xs).getD m 0 ∈ xs := by
    have hm' : m < (sortedVals xs).length := by omega
    rw [List.getD_eq_getElem?_getD, List.getElem?_eq_getElem hm', Option.getD_some]
    exact (sortedVals_perm xs).mem_iff.mp (List.getElem_mem hm')
  have hQ13 : percentile xs 25 ≤ percentile xs 75 :=
    le_trans hQ1 (le_trans hmid hQ3)
  have hvfilter : (sortedVals xs).getD m 0 ∈ removeOutliersFilter xs := by
    simp only [removeOutliersFilter]
    refine List.mem_filter.mpr ⟨hv_mem, ?_⟩
    simp only [Bool.and_eq_true, decide_eq_true_eq]
    constructor
    · linarith
    · linarith
  exact List.ne_nil_of_mem hvfilter

/-- The sorted form of the outlier-removal example `[10,12,11,13,100]`. -/
lemma demo_sortedVals : sortedVals [10, 12, 11, 13, 100] = [10, 11, 12, 13, 100] :=
  List.eq_of_perm_of_sorted ((sortedVals_perm _).trans (by decide))
    (sortedVals_sorted _) (by decide)

/-- 25th percentile of the outlier-removal example. -/
lemma demo_q1 : percentile [10, 12, 11, 13, 100] 25 = 11 := by
  rw [percentile_def, demo_sortedVals]
  norm_num [interpIndex]

/-- 75th percentile of the outlier-removal example. -/
lemma demo_q3 : percentile [10, 12, 11, 13, 100] 75 = 13 := by
  rw [percentile_def, demo_sortedVals]
  norm_num [interpIndex]
  rfl

/-- The IQR filter on `[10,12,11,13,100]` removes exactly the value `100`. -/
lemma demo_filter : removeOutliersFilter [10, 12, 11, 13, 100] = [10, 12, 11, 13] := by
  simp only [removeOutliersFilter, demo_q1, demo_q3]
  norm_num

/-! ### C2 / C8: the range parser -/

/-- C2: on a single-column range spanning an even number of rows
(`r1 ≤ r2`, `r2 - r1` odd), `get_replicate_cells_from_range` returns
`(r2 + 1 - r1) / 2` pairs, pair `i` being the addresses of rows
`r1 + 2*i` and `r1 + 2*i + 1`, in row order. -/
theorem replicate_cells_even_range (col : String) (r1 r2 : ℕ)
    (hle : r1 ≤ r2) (hodd : (r2 - r1) % 2 = 1) :
    (get_replicate_cells_from_range col r1 col r2).length = (r2 + 1 - r1) / 2 ∧
    ∀ i, i < (r2 + 1 - r1) / 2 →
      (get_replicate_cells_from_range col r1 col r2).getD i ("", "") =
        (col ++ toString (r1 + 2 * i), col ++ toString (r1 + 2 * i + 1)) := by
  have hlen : (get_replicate_cells_from_range col r1 col r2).length =
      (r2 + 1 - r1) / 2 := by
    simp only [get_replicate_cells_from_range, pyRange2, List.length_map,
      List.length_range]
    omega
  refine ⟨hlen, fun i hi => ?_⟩
  have hi' : i < (get_replicate_cells_from_range col r1 col r2).length := by
    rw [hlen]; exact hi
  rw [List.getD_eq_getElem?_getD, List.getElem?_eq_getElem hi', Option.getD_some]
  simp [get_replicate_cells_from_range, pyRange2]

/-- C2 witness: on the range `A1:A8` the parser returns four pairs, the
last being `("A7", "A8")`. -/
theorem replicate_cells_even_range_witness :
    (get_replicate_cells_from_range "A" 1 "A" 8).length = 4 ∧
    (get_replicate_cells_from_range "A" 1 "A" 8).getD 0 ("", "") = ("A1", "A2") ∧
    (get_replicate_cells_from_range "A" 1 "A" 8).getD 3 ("", "") = ("A7", "A8") := by
  have h := replicate_cells_even_range "A" 1 8 (by decide) (by decide)
  refine ⟨h.1.trans (by decide), ?_, ?_⟩
  · exact (h.2 0 (by decide)).trans (by decide)
  · exact (h.2 3 (by decide)).trans (by decide)

/-- C8: on a single-column range spanning an odd number of rows
(`r1 ≤ r2`, `r2 - r1` even), the final generated pair's second cell is the
address of row `r2 + 1` — one row past the end of the selection. -/
theorem replicate_cells_odd_range (col : String) (r1 r2 : ℕ)
    (hle : r1 ≤ r2) (heven : (r2 - r1) % 2 = 0) :
    (get_replicate_cells_from_range col r1 col r2).getLast? =
      some (col ++ toString r2, col ++ toString (r2 + 1)) := by
  have hlen : (get_replicate_cells_from_range col r1 col r2).length =
      (r2 - r1) / 2 + 1 := by
    simp only [get_replicate_cells_from_range, pyRange2, List.length_map,
      List.length_range]
    omega
  have hidx : (r2 - r1) / 2 < (get_replicate_cells_from_range col r1 col r2).length := by
    rw [hlen]; omega
  have hrow : r1 + 2 * ((r2 - r1) / 2) = r2 := by omega
  rw [List.getLast?_eq_getElem?, hlen, Nat.add_sub_cancel,
    List.getElem?_eq_getElem hidx]
  simp [get_replicate_cells_from_range, pyRange2, hrow]

/-- C8 witness: on the range `A1:A7` (seven rows) the last pair is
`("A7", "A8")`, with `A8` outside the selection. -/
theorem replicate_cells_odd_range_witness :
    (get_replicate_cells_from_range "A" 1 "A" 7).getLast? = some ("A7", "A8") := by
  have h := replicate_cells_odd_range "A" 1 7 (by decide) (by decide)
  exact h.trans (by decide)

/-! ### C3 / C5: the absorbance calculator -/

/-- C3 (amended): a replicate pair whose two readings are present contributes
`value570 * 117216 - value600 * 80586` to the value list. -/
theorem adjusted_absorbance_formula (sheet : Sheet) (c570 c600 : String)
    (a b : ℚ) (rest : List (String × String))
    (h570 : sheet c570 = some a) (h600 : sheet c600 = some b) :
    process_replicates sheet ((c570, c600) :: rest) =
      (a * 117216 - b * 80586) :: process_replicates sheet rest := by
  simp [process_replicates, h570, h600]

/-- C3 witness: readings `0.5` and `0.2` yield the adjusted absorbance
`42490.8`. -/
theorem adjusted_absorbance_formula_witness :
    process_replicates cexSheet [("A1", "A2")] = [(424908 : ℚ) / 10] := by
  have h := adjusted_absorbance_formula cexSheet "A1" "A2" (1/2) (1/5) []
    (by simp [cexSheet]) (by simp [cexSheet])
  rw [h]
  norm_num [process_replicates]

/-- C3 counterexample: readings `0.5` and `0.2` yield `42490.8`, not the
claimed `42532.8`. -/
theorem adjusted_absorbance_claimed_value_false :
    process_replicates cexSheet [("A1", "A2")] = [(424908 : ℚ) / 10] ∧
    process_replicates cexSheet [("A1", "A2")] ≠ [(425328 : ℚ) / 10] := by
  have h1 : cexSheet "A1" = some (1/2) := by simp [cexSheet]
  have h2 : cexSheet "A2" = some (1/5) := by simp [cexSheet]
  have h : process_replicates cexSheet [("A1", "A2")] = [(424908 : ℚ) / 10] := by
    simp only [process_replicates, List.filterMap_cons, List.filterMap_nil, h1, h2]
    norm_num
  refine ⟨h, ?_⟩
  rw [h]
  intro hc
  have := List.head_eq_of_cons_eq hc
  norm_num at this

/-- C5: a replicate pair with a missing reading is excluded from the value
list (no sentinel, no error), so it does not affect the sample's average. -/
theorem missing_reading_skipped (sheet : Sheet) (pre post : List (String × String))
    (c570 c600 : String) (h : sheet c570 = none ∨ sheet c600 = none) :
    process_replicates sheet (pre ++ (c570, c600) :: post) =
      process_replicates sheet (pre ++ post) ∧
    mean (process_replicates sheet (pre ++ (c570, c600) :: post)) =
      mean (process_replicates sheet (pre ++ post)) := by
  have heq : process_replicates sheet (pre ++ (c570, c600) :: post) =
      process_replicates sheet (pre ++ post) := by
    simp only [process_replicates, List.filterMap_append, List.filterMap_cons]
    rcases h with h | h
    · rw [h]
    · cases h570 : sheet c570 <;> simp [h]
  exact ⟨heq, by rw [heq]⟩

/-- C5 witness: a pair whose 600nm cell is empty leaves the value list and
its mean unchanged. -/
theorem missing_reading_skipped_witness :
    process_replicates cexSheet ([("A1", "A2")] ++ ("A1", "Z9") :: []) =
      process_replicates cexSheet ([("A1", "A2")] ++ []) ∧
    mean (process_replicates cexSheet ([("A1", "A2")] ++ ("A1", "Z9") :: [])) =
      mean (process_replicates cexSheet ([("A1", "A2")] ++ [])) :=
  missing_reading_skipped cexSheet [("A1", "A2")] [] "A1" "Z9"
    (Or.inr (by simp [cexSheet]))

/-! ### C6: empty positive control aborts the run -/

/-- C6: when the positive control has no valid replicate values the whole
run aborts (`none`): no averages or viability percentages are produced. -/
theorem empty_control_aborts (sheet : Sheet) (pcName pcCol : String)
    (pcStart pcEnd : ℕ) (ro : Bool) (inputs : List SampleInput)
    (h : process_replicates sheet
      (get_replicate_cells_from_range pcCol pcStart pcCol pcEnd) = []) :
    run sheet pcName pcCol pcStart pcEnd ro inputs = none := by
  simp [run, h]

/-- C6 witness: on an all-empty worksheet the run aborts. -/
theorem empty_control_aborts_witness :
    run (fun _ => none) "pc" "A" 1 4 false [] = none :=
  empty_control_aborts (fun _ => none) "pc" "A" 1 4 false [] (by decide)

/-! ### C4: the outlier-removal rule -/

/-- C4: outlier removal applies only when requested AND the sample has more
than 2 replicate values; when applied, exactly the values inside
`[Q1 - 1.5*IQR, Q3 + 1.5*IQR]` are kept, where `Q1`/`Q3` are the 25th/75th
linearly interpolated percentiles; on `[10,12,11,13,100]` the value `100`
is removed and the mean is that of `[10,11,12,13]`. -/
theorem outlier_filter_spec (ro : Bool) (xs : List ℚ) :
    (¬(ro = true ∧ 2 < xs.length) → filteredValues ro xs = xs) ∧
    (ro = true → 2 < xs.length → filteredValues ro xs =
      xs.filter (fun v =>
        decide (percentile xs 25 -
            (3/2) * (percentile xs 75 - percentile xs 25) ≤ v) &&
        decide (v ≤ percentile xs 75 +
            (3/2) * (percentile xs 75 - percentile xs 25)))) ∧
    percentile [10, 12, 11, 13, 100] 25 = 11 ∧
    percentile [10, 12, 11, 13, 100] 75 = 13 ∧
    filteredValues true [10, 12, 11, 13, 100] = [10, 12, 11, 13] ∧
    mean (filteredValues true [10, 12, 11, 13, 100]) = mean [10, 11, 12, 13] := by
  have hconc : filteredValues true [10, 12, 11, 13, 100] = [10, 12, 11, 13] := by
    simp only [filteredValues]
    rw [if_pos ⟨by decide, by decide⟩, demo_filter]
  refine ⟨fun hno => ?_, fun h1 h2 => ?_, demo_q1, demo_q3, hconc, ?_⟩
  · simp only [filteredValues]
    rw [if_neg hno]
  · simp only [filteredValues, removeOutliersFilter]
    rw [if_pos ⟨h1, h2⟩]
  · rw [hconc]
    norm_num [mean]

/-- C4 witness: with outlier removal off the values pass through unchanged;
with it on, on `[10,12,11,13,100]` the kept values are exactly those inside
the threshold interval. -/
theorem outlier_filter_spec_witness :
    filteredValues false [10, 12, 11, 13, 100] = [10, 12, 11, 13, 100] ∧
    filteredValues true [10, 12, 11, 13, 100] =
      [10, 12, 11, 13, 100].filter (fun v =>
        decide (percentile [10, 12, 11, 13, 100] 25 -
            (3/2) * (percentile [10, 12, 11, 13, 100] 75 -
              percentile [10, 12, 11, 13, 100] 25) ≤ v) &&
        decide (v ≤ percentile [10, 12, 11, 13, 100] 75 +
            (3/2) * (percentile [10, 12, 11, 13, 100] 75 -
              percentile [10, 12, 11, 13, 100] 25))) :=
  ⟨(outlier_filter_spec false [10, 12, 11, 13, 100]).1 (by simp),
    (outlier_filter_spec true [10, 12, 11, 13, 100]).2.1 rfl (by decide)⟩

/-! ### C10: the filtered list is never empty -/

/-- C10: for every list of more than 2 replicate values, the IQR outlier
filter retains at least one value, so the filtered list is never empty. -/
theorem iqr_filter_retains_value (xs : List ℚ) (h : 2 < xs.length) :
    removeOutliersFilter xs ≠ [] :=
  removeOutliersFilter_ne_nil h

/-- C10 witness: the filter output on `[10,12,11,13,100]` is nonempty. -/
theorem iqr_filter_retains_value_witness :
    removeOutliersFilter [10, 12, 11, 13, 100] ≠ [] :=
  iqr_filter_retains_value [10, 12, 11, 13, 100] (by decide)

/-! ### Helper lemmas for the full pipeline -/

/-- A successful run's table is the control row followed by one row per
collected sample. -/
lemma run_table {sheet : Sheet} {pcName pcCol : String} {pcStart pcEnd : ℕ}
    {ro : Bool} {inputs : List SampleInput} {t : List (String × ℚ)}
    (h : run sheet pcName pcCol pcStart pcEnd ro inputs = some t) :
    t = (pcName, 100) :: (collectSamples sheet inputs).map
        (sampleRow (mean (process_replicates sheet
          (get_replicate_cells_from_range pcCol pcStart pcCol pcEnd))) ro) := by
  simp only [run] at h
  by_cases hc : process_replicates sheet
      (get_replicate_cells_from_range pcCol pcStart pcCol pcEnd) = []
  · rw [if_pos hc] at h
    exact absurd h (by simp)
  · rw [if_neg hc] at h
    exact (Option.some.inj h).symm

/-- The adjusted absorbances of the demo positive control are `[100,110,105]`. -/
lemma demo_pc_values : process_replicates demoSheet
    (get_replicate_cells_from_range "A" 1 "A" 6) = [100, 110, 105] := by
  have hc : get_replicate_cells_from_range "A" 1 "A" 6 =
      [("A1", "A2"), ("A3", "A4"), ("A5", "A6")] := by decide
  have h1 : demoSheet "A1" = some (100/117216) := by simp [demoSheet]
  have h2 : demoSheet "A2" = some 0 := by simp [demoSheet]
  have h3 : demoSheet "A3" = some (110/117216) := by simp [demoSheet]
  have h4 : demoSheet "A4" = some 0 := by simp [demoSheet]
  have h5 : demoSheet "A5" = some (105/117216) := by simp [demoSheet]
  have h6 : demoSheet "A6" = some 0 := by simp [demoSheet]
  rw [hc]
  simp only [process_replicates, List.filterMap_cons, List.filterMap_nil,
    h1, h2, h3, h4, h5, h6]
  norm_num

/-- The adjusted absorbances of the demo sample are `[90, 95]`. -/
lemma demo_s1_values : process_replicates demoSheet
    (get_replicate_cells_from_range "B" 1 "B" 4) = [90, 95] := by
  have hc : get_replicate_cells_from_range "B" 1 "B" 4 =
      [("B1", "B2"), ("B3", "B4")] := by decide
  have h1 : demoSheet "B1" = some (90/117216) := by simp [demoSheet]
  have h2 : demoSheet "B2" = some 0 := by simp [demoSheet]
  have h3 : demoSheet "B3" = some (95/117216) := by simp [demoSheet]
  have h4 : demoSheet "B4" = some 0 := by simp [demoSheet]
  rw [hc]
  simp only [process_replicates, List.filterMap_cons, List.filterMap_nil,
    h1, h2, h3, h4]
  norm_num

/-- The demo run collects exactly one sample, `s1` with values `[90, 95]`. -/
lemma demo_collect : collectSamples demoSheet demoInputs = [⟨"s1", [90, 95]⟩] := by
  simp only [collectSamples, demoInputs, List.filterMap_cons, List.filterMap_nil,
    demo_s1_values]
  rw [if_neg (by decide : ¬([90, 95] : List ℚ) = [])]

lemma demo_collect_mem :
    (⟨"s1", [90, 95]⟩ : Sample) ∈ collectSamples demoSheet demoInputs := by
  rw [demo_collect]
  exact List.mem_cons_self _ _

/-- Full evaluation of the demo run: the control row at `100` followed by
`s1` at `88.1`. -/
lemma demo_run : run demoSheet "ctrl" "A" 1 6 false demoInputs =
    some [("ctrl", 100), ("s1", (881 : ℚ)/10)] := by
  simp only [run, demo_pc_values]
  rw [if_neg (by decide : ¬([100, 110, 105] : List ℚ) = [])]
  rw [demo_collect]
  have hmean : mean [100, 110, 105] = (105 : ℚ) := by norm_num [mean]
  rw [hmean]
  simp only [results_table, List.map_cons, List.map_nil, sampleRow]
  have hfv : filteredValues false [90, 95] = [90, 95] := by simp [filteredValues]
  rw [hfv]
  have hm2 : mean [90, 95] = (185 : ℚ)/2 := by norm_num [mean]
  rw [hm2]
  have hr : round1 ((185 : ℚ)/2 / 105 * 100) = 881/10 := by
    norm_num [round1, pyRound, Int.fract]
  rw [hr]

/-! ### C7: table structure, control fixed at 100 -/

/-- C7: in any successful run the positive control is the first data row at
exactly `100.0` — whatever its own replicate values — and the remaining rows
are the collected samples in entry order. -/
theorem control_first_fixed_100 (sheet : Sheet) (pcName pcCol : String)
    (pcStart pcEnd : ℕ) (ro : Bool) (inputs : List SampleInput)
    (t : List (String × ℚ))
    (h : run sheet pcName pcCol pcStart pcEnd ro inputs = some t) :
    t.head? = some (pcName, 100) ∧
    t = (pcName, 100) :: (collectSamples sheet inputs).map
        (sampleRow (mean (process_replicates sheet
          (get_replicate_cells_from_range pcCol pcStart pcCol pcEnd))) ro) ∧
    t.map Prod.fst = pcName :: (collectSamples sheet inputs).map Sample.sample_name := by
  have ht := run_table h
  refine ⟨by rw [ht]; rfl, ht, ?_⟩
  rw [ht]
  simp [sampleRow, List.map_map, Function.comp]

/-- C7 witness: in the demo run the first row is the control at `100`. -/
theorem control_first_fixed_100_witness :
    ([("ctrl", (100 : ℚ)), ("s1", (881 : ℚ)/10)]).head? = some ("ctrl", 100) :=
  (control_first_fixed_100 demoSheet "ctrl" "A" 1 6 false demoInputs
    [("ctrl", 100), ("s1", 881/10)] demo_run).1

/-! ### C1: the viability percentage formula -/

/-- C1: every collected sample's reported row value is
`round1(100 * mean(filtered values) / mean(control values))`. -/
theorem viability_percentage_formula (sheet : Sheet) (pcName pcCol : String)
    (pcStart pcEnd : ℕ) (ro : Bool) (inputs : List SampleInput)
    (t : List (String × ℚ)) (s : Sample)
    (ht : run sheet pcName pcCol pcStart pcEnd ro inputs = some t)
    (hs : s ∈ collectSamples sheet inputs) :
    (s.sample_name, round1 (100 * mean (filteredValues ro s.replicate_values) /
      mean (process_replicates sheet
        (get_replicate_cells_from_range pcCol pcStart pcCol pcEnd)))) ∈ t := by
  rw [run_table ht]
  refine List.mem_cons_of_mem _ ?_
  have harg : 100 * mean (filteredValues ro s.replicate_values) /
      mean (process_replicates sheet
        (get_replicate_cells_from_range pcCol pcStart pcCol pcEnd)) =
      mean (filteredValues ro s.replicate_values) /
      mean (process_replicates sheet
        (get_replicate_cells_from_range pcCol pcStart pcCol pcEnd)) * 100 := by
    ring
  rw [harg]
  exact List.mem_map_of_mem _ hs

/-- C1 witness: control values `[100,110,105]` (mean `105`) and sample values
`[90,95]` (mean `92.5`) give the reported viability `88.1`. -/
theorem viability_percentage_formula_witness :
    (("s1", (881 : ℚ)/10)) ∈ [("ctrl", (100 : ℚ)), ("s1", (881 : ℚ)/10)] := by
  have h := viability_percentage_formula demoSheet "ctrl" "A" 1 6 false demoInputs
    [("ctrl", 100), ("s1", 881/10)] ⟨"s1", [90, 95]⟩ demo_run demo_collect_mem
  have h2 : ("s1", round1 (100 * mean (filteredValues false [90, 95]) /
      mean (process_replicates demoSheet
        (get_replicate_cells_from_range "A" 1 "A" 6)))) ∈
      [("ctrl", (100 : ℚ)), ("s1", (881 : ℚ)/10)] := h
  have hval : round1 (100 * mean (filteredValues false [90, 95]) /
      mean (process_replicates demoSheet
        (get_replicate_cells_from_range "A" 1 "A" 6))) = (881 : ℚ)/10 := by
    rw [demo_pc_values]
    have hfv : filteredValues false [90, 95] = [90, 95] := by simp [filteredValues]
    rw [hfv]
    norm_num [mean, round1, pyRound, Int.fract]
  rw [hval] at h2
  exact h2

/-! ### C9: no sample can lose all its values to filtering -/

/-- C9 (amended): for every collected sample the (possibly filtered) value
list is provably nonempty — the empty-after-filtering situation never arises —
and the viability loop emits a row for every collected sample unconditionally
(it contains no skip-with-diagnostic path). -/
theorem filtered_sample_always_has_row (sheet : Sheet) (inputs : List SampleInput)
    (s : Sample) (ro : Bool) (pcName : String) (c : ℚ)
    (hs : s ∈ collectSamples sheet inputs) :
    filteredValues ro s.replicate_values ≠ [] ∧
    sampleRow c ro s ∈ results_table pcName c ro (collectSamples sheet inputs) := by
  constructor
  · have hne : s.replicate_values ≠ [] := by
      simp only [collectSamples, List.mem_filterMap] at hs
      obtain ⟨inp, hinp, hf⟩ := hs
      by_cases hv : process_replicates sheet
          (get_replicate_cells_from_range inp.col inp.startRow inp.col inp.endRow) = []
      · rw [if_pos hv] at hf
        exact absurd hf (by simp)
      · rw [if_neg hv] at hf
        have heq := Option.some.inj hf
        rw [← heq]
        exact hv
    by_cases hcond : ro = true ∧ 2 < s.replicate_values.length
    · simp only [filteredValues]
      rw [if_pos hcond]
      exact removeOutliersFilter_ne_nil hcond.2
    · simp only [filteredValues]
      rw [if_neg hcond]
      exact hne
  · simp only [results_table]
    exact List.mem_cons_of_mem _ (List.mem_map_of_mem _ hs)

/-- C9 witness: the demo sample's filtered value list is nonempty and its row
appears in the table. -/
theorem filtered_sample_always_has_row_witness :
    filteredValues true [90, 95] ≠ [] ∧
    sampleRow 105 true ⟨"s1", [90, 95]⟩ ∈
      results_table "ctrl" 105 true (collectSamples demoSheet demoInputs) :=
  filtered_sample_always_has_row demoSheet demoInputs ⟨"s1", [90, 95]⟩ true
    "ctrl" 105 demo_collect_mem

/-- C9 counterexample: the viability loop has no skip path — even a
(pipeline-unreachable) sample whose filtered value list is empty still gets a
row in the results table, contradicting "no viability row is emitted". -/
theorem empty_filtered_sample_still_gets_row :
    filteredValues true ([] : List ℚ) = [] ∧
    (results_table "pc" 105 true [⟨"x", []⟩]).map Prod.fst = ["pc", "x"] := by
  constructor
  · simp [filteredValues]
  · simp [results_table, sampleRow]

end AlamarBlue
